import Mathlib

/-!
Verification of the shoboi-tag-editor editing core: a shallow embedding of
the grid store (`tablemodel.py`), the selection / navigation / clipboard
layer (`tableview.py`) and the save flow (`mainwindow.py`), with theorems
checking the specification's claims against it.

Modelling conventions:
* file paths are strings; binary image payloads are byte lists (`List Nat`);
* Qt model indexes are `(row, column) : Nat × Nat` pairs; an index is valid
  when the row is below the track count and the column below the column count
  (negative coordinates cannot arise with `Nat`);
* the Python lists of mutable `TrackMetadata` objects become immutable
  `List TrackMetadata` values threaded through each operation;
* `dataChanged` emissions are collected as a list of `(row, column)` pairs;
* toolkit image decoding (`QImage.loadFromData`) is an oracle predicate on
  the byte payload, and a `QImage` value is represented by the byte payload
  it was decoded from.
-/

namespace ShoboiTagEditor

/-- `TrackMetadata` dataclass from `metadata.py`: one file's editable
metadata plus the dirty flag. -/
structure TrackMetadata where
  file_path : String
  title : String := ""
  artist : String := ""
  album : String := ""
  track_number : String := ""
  year : String := ""
  genre : String := ""
  cover_image : Option (List Nat) := none
  cover_mime : String := "image/jpeg"
  modified : Bool := false
deriving Repr, DecidableEq

instance : Inhabited TrackMetadata :=
  ⟨{ file_path := "" }⟩

/-- Column schema from `tablemodel.py` (`MetadataTableModel.COLUMNS`):
(label, attribute-name) pairs, in display order. -/
def COLUMNS : List (String × String) :=
  [("Cover", "cover_image"),
   ("Filename", "file_name"),
   ("Title", "title"),
   ("Artist", "artist"),
   ("Album", "album"),
   ("Track Number", "track_number"),
   ("Year", "year"),
   ("Genre", "genre")]

def COVER_COLUMN : Nat := 0

def FILENAME_COLUMN : Nat := 1

/-- Attribute name of a column (second component of the schema entry);
out-of-range columns give the empty string. -/
def columnAttr (col : Nat) : String :=
  ((COLUMNS.getD col ("", "")).2)

/-- A column is of text kind when it is in range and is neither the
filename (identity) column nor the cover (artwork) column. -/
def isTextCol (col : Nat) : Bool :=
  decide (col < COLUMNS.length) &&
    (columnAttr col ≠ "file_name" : Bool) &&
    (columnAttr col ≠ "cover_image" : Bool)

/-- Python `getattr(track, attr, "")` restricted to the text attributes the
schema can name. -/
def getAttrDefault (t : TrackMetadata) (attr : String) : String :=
  if attr = "title" then t.title
  else if attr = "artist" then t.artist
  else if attr = "album" then t.album
  else if attr = "track_number" then t.track_number
  else if attr = "year" then t.year
  else if attr = "genre" then t.genre
  else ""

/-- Python `setattr(track, attr, v)` restricted to the text attributes the
schema can name. -/
def setAttr (t : TrackMetadata) (attr : String) (v : String) : TrackMetadata :=
  if attr = "title" then { t with title := v }
  else if attr = "artist" then { t with artist := v }
  else if attr = "album" then { t with album := v }
  else if attr = "track_number" then { t with track_number := v }
  else if attr = "year" then { t with year := v }
  else if attr = "genre" then { t with genre := v }
  else t

/-- Qt item-data roles relevant to `setData` / `data`. -/
inductive Role where
  | edit
  | user
  | display
deriving Repr, DecidableEq

/-- Values handed to `setData`: a string under `EditRole` (editors and
paste always deliver strings), or the `(bytes | None, mime)` pair handed
under `UserRole` for the cover column. -/
inductive CellValue where
  | text (s : String)
  | image (data : Option (List Nat)) (mime : String)
deriving Repr, DecidableEq

/-- Result of `setData`: the updated store, the returned Bool, and the
`dataChanged` emissions (as the `(row, col)` of the changed index). -/
structure SetDataResult where
  tracks : List TrackMetadata
  ok : Bool
  notifs : List (Nat × Nat)
deriving Repr, DecidableEq

/-- `MetadataTableModel.setData` from `tablemodel.py`.  Row/column range
checks first; the filename column always rejects; the cover column accepts
a `(bytes | None, mime)` pair under `UserRole` unconditionally (an empty
mime string falls back to `"image/jpeg"`); text columns under `EditRole`
store the value only when it differs from the current one. -/
def setData (tracks : List TrackMetadata) (row col : Nat)
    (value : CellValue) (role : Role) : SetDataResult :=
  if row < tracks.length then
    if col < COLUMNS.length then
      let attr := columnAttr col
      if attr = "file_name" then ⟨tracks, false, []⟩
      else
        let track := tracks.getD row default
        if attr = "cover_image" then
          match role, value with
          | Role.user, CellValue.image data mime =>
            let track' : TrackMetadata :=
              { track with
                  cover_image := data,
                  cover_mime := if mime = "" then "image/jpeg" else mime,
                  modified := true }
            ⟨tracks.set row track', true, [(row, col)]⟩
          | _, _ => ⟨tracks, false, []⟩
        else
          match role, value with
          | Role.edit, CellValue.text v =>
            if getAttrDefault track attr ≠ v then
              ⟨tracks.set row { setAttr track attr v with modified := true },
               true, [(row, col)]⟩
            else ⟨tracks, false, []⟩
          | _, _ => ⟨tracks, false, []⟩
    else ⟨tracks, false, []⟩
  else ⟨tracks, false, []⟩

/-! ### Grid store operations (`tablemodel.py`) -/

/-- `MetadataTableModel.add_tracks`: appends the given records in order (the
empty-input early return yields the same store). -/
def add_tracks (tracks new : List TrackMetadata) : List TrackMetadata :=
  tracks ++ new

/-- `MetadataTableModel.clear`: removes all records. -/
def clear_tracks (_tracks : List TrackMetadata) : List TrackMetadata :=
  []

/-- `MetadataTableModel.get_modified_tracks`: records with the dirty flag
set, in store order. -/
def get_modified_tracks (tracks : List TrackMetadata) : List TrackMetadata :=
  tracks.filter (·.modified)

/-- `MetadataTableModel.has_file`: whether some record already has this
path. -/
def has_file (tracks : List TrackMetadata) (p : String) : Bool :=
  tracks.any (·.file_path = p)

/-- `MetadataTableModel.mark_all_saved`: clears the dirty flag on every
record (and would emit a whole-grid `dataChanged`, not tracked here). -/
def mark_all_saved (tracks : List TrackMetadata) : List TrackMetadata :=
  tracks.map (fun t => { t with modified := false })

/-- Whether no two records of a store share a path (spec invariant). -/
def pathsUnique (tracks : List TrackMetadata) : Prop :=
  (tracks.map (·.file_path)).Nodup

instance (tracks : List TrackMetadata) : Decidable (pathsUnique tracks) :=
  List.nodupDecidable _

/-! ### Save flow (`mainwindow.py` / `metadata.py`) -/

/-- One `write_metadata(track)` call from the save loop, with the persist
outcome given by the oracle `persistOk` on the track's path: on success the
function's last line clears the dirty flag; on failure it raises before
reaching that line, leaving the flag untouched. -/
def write_metadata_step (persistOk : String → Bool) (t : TrackMetadata) :
    TrackMetadata :=
  if persistOk t.file_path then { t with modified := false } else t

/-- `MainWindow._on_save`: collects the modified records, attempts to write
each one (failures are caught and logged per file), then calls
`mark_all_saved` unconditionally.  Returns the final store and the list of
paths whose write failed (the error report). -/
def on_save (persistOk : String → Bool) (tracks : List TrackMetadata) :
    List TrackMetadata × List String :=
  let modified := get_modified_tracks tracks
  if modified.isEmpty then (tracks, [])
  else
    let tracks1 := tracks.map
      (fun t => if t.modified then write_metadata_step persistOk t else t)
    let errors :=
      (modified.filter (fun t => ¬ persistOk t.file_path)).map (·.file_path)
    (mark_all_saved tracks1, errors)

/-- One iteration of the `_add_files` loop for a single path: skip it
unless it is a file with a supported suffix that is not already in the
store; then read its metadata (failures are caught and reported, adding
nothing) and append one record.  `read_metadata` always stamps the record
with the requested path. -/
def addFileStep (isFile supported readOk : String → Bool)
    (readMeta : String → TrackMetadata) (acc : List TrackMetadata)
    (p : String) : List TrackMetadata :=
  if ¬ isFile p then acc
  else if ¬ supported p then acc
  else if has_file acc p then acc
  else if readOk p then acc ++ [{ readMeta p with file_path := p }]
  else acc

/-- `MainWindow._add_files`: the per-path loop over the requested paths. -/
def add_files (isFile supported readOk : String → Bool)
    (readMeta : String → TrackMetadata) (tracks : List TrackMetadata)
    (paths : List String) : List TrackMetadata :=
  paths.foldl (addFileStep isFile supported readOk readMeta) tracks

/-! ### Navigation (`tableview.py`) -/

def FIRST_EDITABLE_COLUMN : Nat := 2

/-- `NavigableTableView._move_to_cell`: adopt the target cell when it is in
range, otherwise stay. -/
def move_to_cell (numRows : Nat) (cur : Nat × Nat) (r c : Nat) : Nat × Nat :=
  if r < numRows ∧ c < COLUMNS.length then (r, c) else cur

/-- The `next_col` scan loop of `_handle_tab`: the first column at or after
`c` that is neither the cover nor the filename column, bounded by the
column count. -/
def scanRight (c : Nat) : Option Nat :=
  if h : c < COLUMNS.length then
    if c ≠ COVER_COLUMN ∧ c ≠ FILENAME_COLUMN then some c
    else scanRight (c + 1)
  else none
termination_by COLUMNS.length - c
decreasing_by simp [COLUMNS] at h ⊢; omega

/-- `NavigableTableView._handle_tab` acting on the current cell: scan right
for an editable text column in the same row; failing that, move to the
first editable column of the next row when it exists. -/
def handle_tab (numRows : Nat) (cur : Nat × Nat) : Nat × Nat :=
  match scanRight (cur.2 + 1) with
  | some nc => move_to_cell numRows cur cur.1 nc
  | none =>
    if cur.1 + 1 < numRows then
      move_to_cell numRows cur (cur.1 + 1) FIRST_EDITABLE_COLUMN
    else cur

/-! ### Selection controller (`tableview.py`) -/

/-- The Qt selection command bits this program exercises: `clear` (the
`Clear` flag) and `add` (the `Select` flag).  `ClearAndSelect` is both set,
`NoUpdate` neither. -/
structure SelCmd where
  clear : Bool
  add : Bool
deriving Repr, DecidableEq

def ClearAndSelect : SelCmd := ⟨true, true⟩

/-- Selection-model state: the single active column (None when unset) and
the set of selected cells. -/
structure SelState where
  activeColumn : Option Nat
  selected : List (Nat × Nat)
deriving Repr, DecidableEq

/-- Base-class `QItemSelectionModel.select`: the `Clear` bit drops the
current selection, the `Select` bit adds the incoming cells. -/
def baseSelect (cells : List (Nat × Nat)) (cmd : SelCmd) (st : SelState) :
    SelState :=
  { st with
      selected :=
        (if cmd.clear then [] else st.selected) ++
          (if cmd.add then cells else []) }

/-- `SingleColumnSelectionModel.select`: reset the active column on `Clear`;
take the incoming selection's column from its first index; if a different
column is already active, adopt the new column and apply the incoming
selection with `ClearAndSelect`; otherwise set the active column if unset
and defer to the base class. -/
def smSelect (cells : List (Nat × Nat)) (cmd : SelCmd) (st : SelState) :
    SelState :=
  let st1 := if cmd.clear then { st with activeColumn := none } else st
  match cells with
  | [] => baseSelect cells cmd st1
  | idx :: _ =>
    let newColumn := idx.2
    match st1.activeColumn with
    | some a =>
      if newColumn ≠ a then
        baseSelect cells ClearAndSelect { st1 with activeColumn := some newColumn }
      else baseSelect cells cmd st1
    | none => baseSelect cells cmd { st1 with activeColumn := some newColumn }

/-! ### Clipboard transfer (`tableview.py`) -/

/-- The shared clipboard: a text slot and an image slot.  A `QImage` held
in the image slot is represented by the byte payload it was decoded
from. -/
structure Clipboard where
  text : String
  image : Option (List Nat)
deriving Repr, DecidableEq

/-- Python `Path.name`: the final path component. -/
def pathName (p : String) : String :=
  ((p.splitOn "/").getLast?).getD ""

/-- `MetadataTableModel.data` under `DisplayRole` (None for out-of-range
indexes): the cover column shows the empty string, the filename column the
path's final component, text columns the field value. -/
def dataDisplay (tracks : List TrackMetadata) (row col : Nat) :
    Option String :=
  if row < tracks.length ∧ col < COLUMNS.length then
    let t := tracks.getD row default
    let attr := columnAttr col
    if attr = "cover_image" then some ""
    else if attr = "file_name" then some (pathName t.file_path)
    else some (getAttrDefault t attr)
  else none

/-- `MetadataTableModel.data` under `UserRole`: the raw
`(cover_image, cover_mime)` pair for a valid cover-column index, None
otherwise. -/
def dataUser (tracks : List TrackMetadata) (row col : Nat) :
    Option (Option (List Nat) × String) :=
  if row < tracks.length ∧ col < COLUMNS.length ∧
      columnAttr col = "cover_image" then
    let t := tracks.getD row default
    some (t.cover_image, t.cover_mime)
  else none

/-- Insert a cell into a row-sorted list, after all entries whose row is
less than or equal to its own (so that building with `foldl` is a stable
sort, like Python's `sorted` with a row key). -/
def insertByRow (x : Nat × Nat) : List (Nat × Nat) → List (Nat × Nat)
  | [] => [x]
  | y :: ys => if y.1 ≤ x.1 then y :: insertByRow x ys else x :: y :: ys

/-- `sorted(indexes, key=lambda idx: idx.row())`: stable sort by row. -/
def sortByRow (l : List (Nat × Nat)) : List (Nat × Nat) :=
  l.foldl (fun acc x => insertByRow x acc) []

/-- `NavigableTableView._copy_selection` with the toolkit image decoder as
the oracle `decodeOk`: sort the selection by row; if the first cell is in
the cover column, put its image payload (when present, non-empty and
decodable) into the clipboard's image slot and ignore the rest; otherwise
join the display texts of all selected cells with newlines into the text
slot. -/
def copy_selection (decodeOk : List Nat → Bool)
    (tracks : List TrackMetadata) (indexes : List (Nat × Nat))
    (clip : Clipboard) : Clipboard :=
  if indexes.isEmpty then clip
  else
    let sorted := sortByRow indexes
    let first := sorted.headD (0, 0)
    if first.2 = COVER_COLUMN then
      match dataUser tracks first.1 first.2 with
      | some (some imgData, _) =>
        if imgData ≠ [] ∧ decodeOk imgData then
          { clip with image := some imgData }
        else clip
      | _ => clip
    else
      let values := sorted.map (fun idx => (dataDisplay tracks idx.1 idx.2).getD "")
      { clip with text := String.intercalate "\n" values }

/-- One iteration of the cover-paste loop in `_paste_to_selection`: apply
the (already re-encoded) clipboard image to the cell when it is in the
cover column, else skip it. -/
def pasteCoverStep (image_data : List Nat)
    (acc : List TrackMetadata × List (Nat × Nat)) (idx : Nat × Nat) :
    List TrackMetadata × List (Nat × Nat) :=
  if idx.2 = COVER_COLUMN then
    let r := setData acc.1 idx.1 idx.2
      (CellValue.image (some image_data) "image/png") Role.user
    (r.tracks, acc.2 ++ r.notifs)
  else acc

/-- One iteration of the text-paste loop in `_paste_to_selection`: skip
cover/filename cells, otherwise broadcast the clipboard text through
`setData`. -/
def pasteTextStep (t : String)
    (acc : List TrackMetadata × List (Nat × Nat)) (idx : Nat × Nat) :
    List TrackMetadata × List (Nat × Nat) :=
  if idx.2 = COVER_COLUMN ∨ idx.2 = FILENAME_COLUMN then acc
  else
    let r := setData acc.1 idx.1 idx.2 (CellValue.text t) Role.edit
    (r.tracks, acc.2 ++ r.notifs)

/-- `NavigableTableView._paste_to_selection`, with `encodePNG` standing for
the clipboard image's re-encoding to PNG bytes: if the first selected cell
is in the cover column, apply the re-encoded clipboard image (when one is
present) to every selected cover cell; otherwise broadcast the clipboard
text (when non-empty) to every selected cell that is neither the cover nor
the filename column.  Returns the updated store and the collected
`dataChanged` emissions. -/
def paste_to_selection (encodePNG : List Nat → List Nat) (clip : Clipboard)
    (tracks : List TrackMetadata) (indexes : List (Nat × Nat)) :
    List TrackMetadata × List (Nat × Nat) :=
  if indexes.isEmpty then (tracks, [])
  else
    let first := indexes.headD (0, 0)
    if first.2 = COVER_COLUMN then
      match clip.image with
      | some img =>
        indexes.foldl (pasteCoverStep (encodePNG img)) (tracks, [])
      | none => (tracks, [])
    else
      if clip.text = "" then (tracks, [])
      else indexes.foldl (pasteTextStep clip.text) (tracks, [])

/-! ### Helper lemmas -/

lemma isTextCol_lt {c : Nat} (h : isTextCol c = true) : c < COLUMNS.length := by
  simp only [isTextCol, Bool.and_eq_true, decide_eq_true_eq] at h
  exact h.1.1

lemma isTextCol_ne_file {c : Nat} (h : isTextCol c = true) :
    columnAttr c ≠ "file_name" := by
  simp only [isTextCol, Bool.and_eq_true, decide_eq_true_eq] at h
  exact h.1.2

lemma isTextCol_ne_cover {c : Nat} (h : isTextCol c = true) :
    columnAttr c ≠ "cover_image" := by
  simp only [isTextCol, Bool.and_eq_true, decide_eq_true_eq] at h
  exact h.2

lemma columnAttr_text_cases {c : Nat} (hc : isTextCol c = true) :
    columnAttr c = "title" ∨ columnAttr c = "artist" ∨ columnAttr c = "album" ∨
      columnAttr c = "track_number" ∨ columnAttr c = "year" ∨
      columnAttr c = "genre" := by
  have h8 : c < 8 := by simpa [COLUMNS] using isTextCol_lt hc
  interval_cases c <;> first | exact absurd hc (by decide) | decide

lemma getAttr_setAttr {t : TrackMetadata} {attr v : String}
    (h : attr = "title" ∨ attr = "artist" ∨ attr = "album" ∨
      attr = "track_number" ∨ attr = "year" ∨ attr = "genre") :
    getAttrDefault (setAttr t attr v) attr = v := by
  rcases h with h | h | h | h | h | h <;> subst h <;> simp [getAttrDefault, setAttr]

lemma getD_set_self {l : List TrackMetadata} {i : Nat} (h : i < l.length)
    (a d : TrackMetadata) : (l.set i a).getD i d = a := by
  simp [List.getElem?_set_self', List.getElem?_eq_getElem h]

lemma getD_set_ne {l : List TrackMetadata} {i j : Nat} (h : i ≠ j)
    (a d : TrackMetadata) : (l.set i a).getD j d = l.getD j d := by
  simp [List.getElem?_set_ne h]

/-- Behavior of `setData` on a text column when the value equals the
current one: rejected, nothing changes, nothing is emitted. -/
lemma setData_text_same {tracks : List TrackMetadata} {row c : Nat} {t : String}
    (hr : row < tracks.length) (hc : isTextCol c = true)
    (hold : getAttrDefault (tracks.getD row default) (columnAttr c) = t) :
    setData tracks row c (CellValue.text t) Role.edit = ⟨tracks, false, []⟩ := by
  simp only [List.getD_eq_getElem?_getD, List.getElem?_eq_getElem hr,
    Option.getD_some] at hold
  simp [setData, hr, isTextCol_lt hc, isTextCol_ne_file hc, isTextCol_ne_cover hc, hold]

/-- Behavior of `setData` on a text column when the value differs from the
current one: the field is stored, the dirty flag set, `true` returned and a
`dataChanged` emitted. -/
lemma setData_text_diff {tracks : List TrackMetadata} {row c : Nat} {t : String}
    (hr : row < tracks.length) (hc : isTextCol c = true)
    (hold : getAttrDefault (tracks.getD row default) (columnAttr c) ≠ t) :
    setData tracks row c (CellValue.text t) Role.edit =
      ⟨tracks.set row
         { setAttr (tracks.getD row default) (columnAttr c) t with modified := true },
       true, [(row, c)]⟩ := by
  have hold' := hold
  simp only [List.getD_eq_getElem?_getD, List.getElem?_eq_getElem hr,
    Option.getD_some] at hold'
  simp [setData, hr, isTextCol_lt hc, isTextCol_ne_file hc, isTextCol_ne_cover hc,
    hold', List.getD_eq_getElem?_getD, List.getElem?_eq_getElem hr]

/-! ### Claims -/

/-- C2: on a valid text-column cell, `setData` with a value equal to the
current field value returns false and changes nothing; with a differing
value it stores the value, sets the dirty flag and returns true. -/
theorem C2_setField_text_equality_check (tracks : List TrackMetadata)
    (row col : Nat) (v : String) (hr : row < tracks.length)
    (hc : isTextCol col = true) :
    (getAttrDefault (tracks.getD row default) (columnAttr col) = v →
      setData tracks row col (CellValue.text v) Role.edit = ⟨tracks, false, []⟩) ∧
    (getAttrDefault (tracks.getD row default) (columnAttr col) ≠ v →
      (setData tracks row col (CellValue.text v) Role.edit).ok = true ∧
      getAttrDefault
        ((setData tracks row col (CellValue.text v) Role.edit).tracks.getD row default)
        (columnAttr col) = v ∧
      ((setData tracks row col (CellValue.text v) Role.edit).tracks.getD row default).modified
        = true) := by
  constructor
  · intro h
    exact setData_text_same hr hc h
  · intro h
    rw [setData_text_diff hr hc h]
    refine ⟨rfl, ?_, ?_⟩
    · rw [getD_set_self hr]
      exact getAttr_setAttr (columnAttr_text_cases hc)
    · rw [getD_set_self hr]

/-- Closed instance of `C2_setField_text_equality_check` at a concrete
store: both branches exercised on the title column. -/
theorem C2_witness :
    (setData [{ file_path := "a.mp3", title := "X" }] 0 2
        (CellValue.text "X") Role.edit =
      ⟨[{ file_path := "a.mp3", title := "X" }], false, []⟩) ∧
    (setData [{ file_path := "a.mp3", title := "X" }] 0 2
        (CellValue.text "Y") Role.edit).ok = true := by
  have h := C2_setField_text_equality_check
    [{ file_path := "a.mp3", title := "X" }] 0 2 "X" (by decide) (by decide)
  have h2 := C2_setField_text_equality_check
    [{ file_path := "a.mp3", title := "X" }] 0 2 "Y" (by decide) (by decide)
  exact ⟨h.1 (by decide), (h2.2 (by decide)).1⟩

/-- C3: `setData` on the identity (filename) column always returns false
and leaves the whole store untouched, for every row, value and role. -/
theorem C3_identity_setField_rejects (tracks : List TrackMetadata) (row : Nat)
    (value : CellValue) (role : Role) :
    setData tracks row FILENAME_COLUMN value role = ⟨tracks, false, []⟩ := by
  by_cases hr : row < tracks.length
  · simp [setData, hr, FILENAME_COLUMN, columnAttr, COLUMNS]
  · simp [setData, hr]

/-- C4: `setData` on the artwork (cover) column under `UserRole` applies
any `(binary-or-absent, mime)` pair unconditionally — no equality
short-circuit — sets the dirty flag and returns true. -/
theorem C4_artwork_setField_unconditional (tracks : List TrackMetadata)
    (row : Nat) (data : Option (List Nat)) (mime : String)
    (hr : row < tracks.length) (hm : mime ≠ "") :
    setData tracks row COVER_COLUMN (CellValue.image data mime) Role.user =
      ⟨tracks.set row
         { tracks.getD row default with
             cover_image := data, cover_mime := mime, modified := true },
       true, [(row, COVER_COLUMN)]⟩ := by
  simp [setData, hr, COVER_COLUMN, columnAttr, COLUMNS, hm]

/-- Closed instance of `C4_artwork_setField_unconditional` where the pasted
bytes equal the record's current cover bytes: still applied, dirty set,
true returned. -/
theorem C4_witness :
    setData [{ file_path := "a.mp3", cover_image := some [1, 2],
               cover_mime := "image/png", modified := false }] 0 COVER_COLUMN
        (CellValue.image (some [1, 2]) "image/png") Role.user =
      ⟨[{ file_path := "a.mp3", cover_image := some [1, 2],
          cover_mime := "image/png", modified := true }], true,
       [(0, COVER_COLUMN)]⟩ := by
  rw [C4_artwork_setField_unconditional _ _ _ _ (by decide) (by decide)]
  decide

lemma first_text_col_least : ∀ e, isTextCol e = true → FIRST_EDITABLE_COLUMN ≤ e := by
  intro e he
  by_contra hlt
  push_neg at hlt
  have h2 : e < 2 := hlt
  interval_cases e <;> exact absurd he (by decide)

/-- C7: Tab moves to the nearest column right of the current one that is
neither the cover (artwork) nor the filename (identity) column; when no
such column remains in the row, it moves to the first text column of the
next row if that row exists, and otherwise does not move. -/
theorem C7_tab_skips_and_wraps (n r c : Nat) (hr : r < n)
    (hc : c < COLUMNS.length) :
    ((∃ d, c < d ∧ d < COLUMNS.length ∧ d ≠ COVER_COLUMN ∧ d ≠ FILENAME_COLUMN) →
      ∃ d, c < d ∧ d < COLUMNS.length ∧ d ≠ COVER_COLUMN ∧ d ≠ FILENAME_COLUMN ∧
        handle_tab n (r, c) = (r, d) ∧
        ∀ e, c < e → e < COLUMNS.length → e ≠ COVER_COLUMN →
          e ≠ FILENAME_COLUMN → d ≤ e) ∧
    ((¬ ∃ d, c < d ∧ d < COLUMNS.length ∧ d ≠ COVER_COLUMN ∧ d ≠ FILENAME_COLUMN) →
      (r + 1 < n →
        handle_tab n (r, c) = (r + 1, FIRST_EDITABLE_COLUMN) ∧
        isTextCol FIRST_EDITABLE_COLUMN = true ∧
        ∀ e, isTextCol e = true → FIRST_EDITABLE_COLUMN ≤ e) ∧
      (¬ r + 1 < n → handle_tab n (r, c) = (r, c))) := by
  have h8 : c < 8 := by simpa [COLUMNS] using hc
  interval_cases c
  · refine ⟨fun _ => ⟨2, by omega, by decide, by decide, by decide, ?_,
        fun e h1 h2 h3 h4 => by simp only [COVER_COLUMN, FILENAME_COLUMN] at h3 h4; omega⟩,
      fun hnex => absurd ⟨2, by omega, by decide, by decide, by decide⟩ hnex⟩
    simp [handle_tab, scanRight, COLUMNS, COVER_COLUMN, FILENAME_COLUMN,
      move_to_cell, hr]
  · refine ⟨fun _ => ⟨2, by omega, by decide, by decide, by decide, ?_,
        fun e h1 h2 h3 h4 => by simp only [COVER_COLUMN, FILENAME_COLUMN] at h3 h4; omega⟩,
      fun hnex => absurd ⟨2, by omega, by decide, by decide, by decide⟩ hnex⟩
    simp [handle_tab, scanRight, COLUMNS, COVER_COLUMN, FILENAME_COLUMN,
      move_to_cell, hr]
  · refine ⟨fun _ => ⟨3, by omega, by decide, by decide, by decide, ?_,
        fun e h1 h2 h3 h4 => by simp only [COVER_COLUMN, FILENAME_COLUMN] at h3 h4; omega⟩,
      fun hnex => absurd ⟨3, by omega, by decide, by decide, by decide⟩ hnex⟩
    simp [handle_tab, scanRight, COLUMNS, COVER_COLUMN, FILENAME_COLUMN,
      move_to_cell, hr]
  · refine ⟨fun _ => ⟨4, by omega, by decide, by decide, by decide, ?_,
        fun e h1 h2 h3 h4 => by simp only [COVER_COLUMN, FILENAME_COLUMN] at h3 h4; omega⟩,
      fun hnex => absurd ⟨4, by omega, by decide, by decide, by decide⟩ hnex⟩
    simp [handle_tab, scanRight, COLUMNS, COVER_COLUMN, FILENAME_COLUMN,
      move_to_cell, hr]
  · refine ⟨fun _ => ⟨5, by omega, by decide, by decide, by decide, ?_,
        fun e h1 h2 h3 h4 => by simp only [COVER_COLUMN, FILENAME_COLUMN] at h3 h4; omega⟩,
      fun hnex => absurd ⟨5, by omega, by decide, by decide, by decide⟩ hnex⟩
    simp [handle_tab, scanRight, COLUMNS, COVER_COLUMN, FILENAME_COLUMN,
      move_to_cell, hr]
  · refine ⟨fun _ => ⟨6, by omega, by decide, by decide, by decide, ?_,
        fun e h1 h2 h3 h4 => by simp only [COVER_COLUMN, FILENAME_COLUMN] at h3 h4; omega⟩,
      fun hnex => absurd ⟨6, by omega, by decide, by decide, by decide⟩ hnex⟩
    simp [handle_tab, scanRight, COLUMNS, COVER_COLUMN, FILENAME_COLUMN,
      move_to_cell, hr]
  · refine ⟨fun _ => ⟨7, by omega, by decide, by decide, by decide, ?_,
        fun e h1 h2 h3 h4 => by simp only [COVER_COLUMN, FILENAME_COLUMN] at h3 h4; omega⟩,
      fun hnex => absurd ⟨7, by omega, by decide, by decide, by decide⟩ hnex⟩
    simp [handle_tab, scanRight, COLUMNS, COVER_COLUMN, FILENAME_COLUMN,
      move_to_cell, hr]
  · refine ⟨fun hex => ?_, fun _ => ⟨fun hn => ?_, fun hn => ?_⟩⟩
    · exfalso
      obtain ⟨d, h1, h2, _, _⟩ := hex
      simp [COLUMNS] at h2
      omega
    · refine ⟨?_, by decide, first_text_col_least⟩
      simp [handle_tab, scanRight, COLUMNS, COVER_COLUMN, FILENAME_COLUMN,
        move_to_cell, FIRST_EDITABLE_COLUMN, hn]
    · simp [handle_tab, scanRight, COLUMNS, COVER_COLUMN, FILENAME_COLUMN,
        move_to_cell, hn]

/-- Closed instance of `C7_tab_skips_and_wraps`: with two rows, Tab from
the last column of row 0 lands on (1, 2), and Tab from (1, 7) at the last
row does not move. -/
theorem C7_witness :
    handle_tab 2 (0, 7) = (1, FIRST_EDITABLE_COLUMN) ∧
    handle_tab 2 (1, 7) = (1, 7) := by
  have hnex : ¬ ∃ d, 7 < d ∧ d < COLUMNS.length ∧ d ≠ COVER_COLUMN ∧
      d ≠ FILENAME_COLUMN := by
    rintro ⟨d, hd1, hd2, -, -⟩
    simp only [COLUMNS, List.length] at hd2
    omega
  have h1 := C7_tab_skips_and_wraps 2 0 7 (by decide) (by decide)
  have h2 := C7_tab_skips_and_wraps 2 1 7 (by decide) (by decide)
  exact ⟨((h1.2 hnex).1 (by decide)).1, (h2.2 hnex).2 (by decide)⟩

/-- After any single-cell selection request, the selection model's active
column is the requested cell's column. -/
lemma smSelect_single_active (r c : Nat) (cmd : SelCmd) (st : SelState) :
    (smSelect [(r, c)] cmd st).activeColumn = some c := by
  rcases cmd with ⟨cl, ad⟩
  rcases st with ⟨ac, sel⟩
  cases cl <;> rcases ac with _ | a0
  all_goals simp [smSelect, baseSelect]
  all_goals try (split_ifs <;> simp_all)

/-- A single-cell request in a column differing from the active one
replaces the selection: afterwards only that column's cells are selected
and it is the active column. -/
lemma smSelect_diff {a : Nat} (r c : Nat) (cmd : SelCmd) (st : SelState)
    (h : st.activeColumn = some a) (hne : c ≠ a) :
    (smSelect [(r, c)] cmd st).activeColumn = some c ∧
    ∀ p ∈ (smSelect [(r, c)] cmd st).selected, p.2 = c := by
  rcases cmd with ⟨cl, ad⟩
  rcases st with ⟨ac, sel⟩
  simp only [SelState.mk.injEq] at h
  cases cl <;> cases ad <;> simp_all [smSelect, baseSelect, ClearAndSelect, hne]

/-- C8: selecting a cell in column `a` and then a cell in a different
column `b` — whatever the command modes and the prior state — leaves a
selection containing only column-`b` cells, with `b` the active column. -/
theorem C8_single_active_column (st : SelState) (cmd1 cmd2 : SelCmd)
    (r1 r2 a b : Nat) (hab : a ≠ b) :
    (smSelect [(r2, b)] cmd2 (smSelect [(r1, a)] cmd1 st)).activeColumn = some b ∧
    ∀ p ∈ (smSelect [(r2, b)] cmd2 (smSelect [(r1, a)] cmd1 st)).selected,
      p.2 = b := by
  exact smSelect_diff r2 b cmd2 _ (smSelect_single_active r1 a cmd1 st)
    (Ne.symm hab)

/-- Closed instance of `C8_single_active_column`: click cell (0, 2) then
cell (1, 3) starting from the empty selection model. -/
theorem C8_witness :
    (smSelect [(1, 3)] ClearAndSelect
        (smSelect [(0, 2)] ClearAndSelect ⟨none, []⟩)).activeColumn = some 3 ∧
    ∀ p ∈ (smSelect [(1, 3)] ClearAndSelect
        (smSelect [(0, 2)] ClearAndSelect ⟨none, []⟩)).selected, p.2 = 3 :=
  C8_single_active_column ⟨none, []⟩ ClearAndSelect ClearAndSelect 0 1 2 3
    (by decide)

/-- C10: pasting while the clipboard's text slot holds the empty string is
a complete no-op on a selection of text-column cells — the store is
untouched and no change notification is emitted. -/
theorem C10_paste_empty_text_noop (enc : List Nat → List Nat)
    (img : Option (List Nat)) (tracks : List TrackMetadata)
    (indexes : List (Nat × Nat))
    (hcols : ∀ p ∈ indexes, isTextCol p.2 = true) :
    paste_to_selection enc ⟨"", img⟩ tracks indexes = (tracks, []) := by
  cases indexes with
  | nil => simp [paste_to_selection]
  | cons p rest =>
    have hp : isTextCol p.2 = true := hcols p (by simp)
    have hne : p.2 ≠ COVER_COLUMN := by
      intro h
      rw [h] at hp
      exact absurd hp (by decide)
    simp [paste_to_selection, hne]

/-- Closed instance of `C10_paste_empty_text_noop`: three genre cells
selected, empty clipboard text, nothing happens. -/
theorem C10_witness :
    paste_to_selection (fun x => x) ⟨"", none⟩
        [{ file_path := "a.mp3", genre := "Rock" }] [(0, 7)] =
      ([{ file_path := "a.mp3", genre := "Rock" }], []) :=
  C10_paste_empty_text_noop (fun x => x) none
    [{ file_path := "a.mp3", genre := "Rock" }] [(0, 7)] (by decide)

lemma foldl_insertByRow_head (x : Nat × Nat) :
    ∀ (xs : List (Nat × Nat)) (acc : List (Nat × Nat)),
      (∀ y ∈ xs, x.1 ≤ y.1) →
      ∃ rest, xs.foldl (fun a y => insertByRow y a) (x :: acc) = x :: rest := by
  intro xs
  induction xs with
  | nil => exact fun acc _ => ⟨acc, rfl⟩
  | cons y ys ih =>
    intro acc h
    have hxy : x.1 ≤ y.1 := h y (by simp)
    have : insertByRow y (x :: acc) = x :: insertByRow y acc := by
      simp [insertByRow, hxy]
    rw [List.foldl_cons, this]
    exact ih (insertByRow y acc) (fun z hz => h z (by simp [hz]))

/-- Stability of the row sort: when the first cell of the selection has a
minimal row, it stays first after sorting. -/
lemma sortByRow_head (x : Nat × Nat) (xs : List (Nat × Nat))
    (h : ∀ y ∈ xs, x.1 ≤ y.1) :
    ∃ rest, sortByRow (x :: xs) = x :: rest := by
  have : sortByRow (x :: xs) =
      xs.foldl (fun a y => insertByRow y a) [x] := by
    simp [sortByRow, insertByRow]
  rw [this]
  exact foldl_insertByRow_head x xs [] h

/-- C6: when the selection's first cell (minimal row) is in the artwork
column and holds a non-empty, decodable image payload, copy puts exactly
that payload into the clipboard's image slot, ignoring the other selected
cells. -/
theorem C6_copy_artwork_first_cell (decodeOk : List Nat → Bool)
    (tracks : List TrackMetadata) (clip : Clipboard) (r : Nat)
    (rest : List (Nat × Nat)) (bytes : List Nat)
    (hmin : ∀ p ∈ rest, r ≤ p.1)
    (hr : r < tracks.length)
    (himg : (tracks.getD r default).cover_image = some bytes)
    (hbne : bytes ≠ [])
    (hdec : decodeOk bytes = true) :
    copy_selection decodeOk tracks ((r, COVER_COLUMN) :: rest) clip =
      { clip with image := some bytes } := by
  obtain ⟨rest', hsort⟩ := sortByRow_head (r, COVER_COLUMN) rest hmin
  have hsort0 : sortByRow ((r, 0) :: rest) = (r, 0) :: rest' := by
    simpa [COVER_COLUMN] using hsort
  have himg2 : (tracks.getD r default).cover_image = some bytes := himg
  simp only [List.getD_eq_getElem?_getD, List.getElem?_eq_getElem hr,
    Option.getD_some] at himg2
  simp [copy_selection, hsort0, dataUser, hr, himg2, hbne, hdec,
    columnAttr, COLUMNS, COVER_COLUMN]

/-- Closed instance of `C6_copy_artwork_first_cell`: the artwork cells of
rows 0 and 1 are selected; the clipboard receives row 0's bytes only. -/
theorem C6_witness :
    copy_selection (fun _ => true)
        [{ file_path := "a.mp3", cover_image := some [7, 8] },
         { file_path := "b.mp3", cover_image := some [9] }]
        [(0, COVER_COLUMN), (1, COVER_COLUMN)] ⟨"", none⟩ =
      ⟨"", some [7, 8]⟩ :=
  C6_copy_artwork_first_cell (fun _ => true)
    [{ file_path := "a.mp3", cover_image := some [7, 8] },
     { file_path := "b.mp3", cover_image := some [9] }]
    ⟨"", none⟩ 0 [(1, COVER_COLUMN)] [7, 8]
    (by decide) (by decide) (by decide) (by decide) (by decide)


lemma setData_tracks_length (tracks : List TrackMetadata) (row col : Nat)
    (value : CellValue) (role : Role) :
    (setData tracks row col value role).tracks.length = tracks.length := by
  rcases role <;> rcases value <;> simp only [setData] <;>
    split_ifs <;> simp [List.length_set]

lemma setData_tracks_row_ne (tracks : List TrackMetadata) (row col : Nat)
    (value : CellValue) (role : Role) {r : Nat} (h : r ≠ row)
    (d : TrackMetadata) :
    (setData tracks row col value role).tracks.getD r d = tracks.getD r d := by
  rcases role <;> rcases value <;> simp only [setData] <;>
    split_ifs <;> simp [List.getElem?_set_ne (Ne.symm h)]


lemma isTextCol_ne_covercol {c : Nat} (h : isTextCol c = true) :
    c ≠ COVER_COLUMN := by
  intro he
  rw [he] at h
  exact absurd h (by decide)

lemma isTextCol_ne_filenamecol {c : Nat} (h : isTextCol c = true) :
    c ≠ FILENAME_COLUMN := by
  intro he
  rw [he] at h
  exact absurd h (by decide)

lemma pasteTextStep_length (t : String)
    (acc : List TrackMetadata × List (Nat × Nat)) (q : Nat × Nat) :
    ((pasteTextStep t acc q).1).length = acc.1.length := by
  unfold pasteTextStep
  split_ifs <;> simp [setData_tracks_length]

lemma pasteTextStep_row_ne (t : String)
    (acc : List TrackMetadata × List (Nat × Nat)) (q : Nat × Nat) {r : Nat}
    (h : r ≠ q.1) (d : TrackMetadata) :
    ((pasteTextStep t acc q).1).getD r d = acc.1.getD r d := by
  unfold pasteTextStep
  split_ifs
  · rfl
  · exact setData_tracks_row_ne _ _ _ _ _ h d

lemma pasteTextFold_length (t : String) (indexes : List (Nat × Nat)) :
    ∀ acc, ((indexes.foldl (pasteTextStep t) acc).1).length = acc.1.length := by
  induction indexes with
  | nil => intro acc; rfl
  | cons q rest ih =>
    intro acc
    rw [List.foldl_cons, ih (pasteTextStep t acc q), pasteTextStep_length]

lemma pasteTextFold_row_ne (t : String) (indexes : List (Nat × Nat)) :
    ∀ acc {r : Nat}, r ∉ indexes.map Prod.fst → ∀ d,
      ((indexes.foldl (pasteTextStep t) acc).1).getD r d = acc.1.getD r d := by
  induction indexes with
  | nil => intro acc r _ d; rfl
  | cons q rest ih =>
    intro acc r hr d
    simp only [List.map_cons, List.mem_cons, not_or] at hr
    rw [List.foldl_cons, ih (pasteTextStep t acc q) hr.2 d,
      pasteTextStep_row_ne t acc q hr.1 d]

/-- C1 (code behavior at the failing input): with two modified records
where the write succeeds for `a.mp3` and fails for `b.mp3`, the save flow
reports `b.mp3` in the error list, yet `b.mp3`'s dirty flag is false
afterwards — `_on_save` calls `mark_all_saved` unconditionally, clearing
every record.  The claim (and the spec's retry contract) requires the
failed record to keep `dirty = true`. -/
theorem C1_failed_write_dirty_cleared :
    ((on_save (fun p => decide (p = "a.mp3"))
        [{ file_path := "a.mp3", modified := true },
         { file_path := "b.mp3", modified := true }]).2 = ["b.mp3"]) ∧
    (((on_save (fun p => decide (p = "a.mp3"))
        [{ file_path := "a.mp3", modified := true },
         { file_path := "b.mp3", modified := true }]).1.getD 1
          default).modified = false) := by
  decide

lemma has_file_false_not_mem {acc : List TrackMetadata} {p : String}
    (h : has_file acc p = false) : p ∉ acc.map (·.file_path) := by
  intro hp
  rw [List.mem_map] at hp
  obtain ⟨t, ht, hte⟩ := hp
  have htrue : has_file acc p = true := by
    rw [has_file, List.any_eq_true]
    exact ⟨t, ht, by simp [hte]⟩
  rw [htrue] at h
  cases h

lemma addFileStep_preserves (isFile supported readOk : String → Bool)
    (readMeta : String → TrackMetadata) (acc : List TrackMetadata)
    (p : String) (h : pathsUnique acc) :
    pathsUnique (addFileStep isFile supported readOk readMeta acc p) := by
  unfold addFileStep
  split_ifs with h1 h2 h3 h4 <;> try exact h
  have h3f : has_file acc p = false := by simpa using h3
  have hnot := has_file_false_not_mem h3f
  unfold pathsUnique at h ⊢
  rw [List.map_append, List.nodup_append]
  refine ⟨h, List.nodup_singleton _, ?_⟩
  intro x hx hx2
  simp only [List.map_cons, List.map_nil, List.mem_singleton] at hx2
  apply hnot
  simpa [hx2] using hx

/-- C9 as stated is false: `add_tracks` appends its input unchecked, so
adding two records with the same path produces a store with a duplicated
path. -/
theorem C9_counterexample :
    ¬ pathsUnique
        (add_tracks [] [{ file_path := "a.mp3" }, { file_path := "a.mp3" }]) := by
  decide

/-- C9 (amended): path uniqueness is an invariant of the add-files flow —
which checks `has_file` before each single-record add — and of `clear`;
`add_tracks` itself performs no uniqueness check. -/
theorem C9_unique_paths_via_add_files (isFile supported readOk : String → Bool)
    (readMeta : String → TrackMetadata) (tracks : List TrackMetadata)
    (paths : List String) (h : pathsUnique tracks) :
    pathsUnique (add_files isFile supported readOk readMeta tracks paths) ∧
    pathsUnique (clear_tracks tracks) := by
  constructor
  · unfold add_files
    induction paths generalizing tracks with
    | nil => exact h
    | cons p rest ih =>
      rw [List.foldl_cons]
      exact ih _ (addFileStep_preserves isFile supported readOk readMeta tracks p h)
  · exact List.nodup_nil

/-- Closed instance of `C9_unique_paths_via_add_files`: loading the same
path twice (plus a fresh one) still yields pairwise-distinct paths. -/
theorem C9_witness :
    pathsUnique
      (add_files (fun _ => true) (fun _ => true) (fun _ => true)
        (fun p => { file_path := p }) [] ["a.mp3", "a.mp3", "b.mp3"]) ∧
    pathsUnique (clear_tracks []) :=
  C9_unique_paths_via_add_files (fun _ => true) (fun _ => true) (fun _ => true)
    (fun p => { file_path := p }) [] ["a.mp3", "a.mp3", "b.mp3"] (by decide)

lemma pasteTextStep_skip (t : String)
    (acc : List TrackMetadata × List (Nat × Nat)) (q : Nat × Nat)
    (h : q.2 = COVER_COLUMN ∨ q.2 = FILENAME_COLUMN) :
    pasteTextStep t acc q = acc := by
  unfold pasteTextStep
  rw [if_pos h]

lemma pasteTextStep_text (t : String)
    (acc : List TrackMetadata × List (Nat × Nat)) (q : Nat × Nat)
    (h : isTextCol q.2 = true) :
    (pasteTextStep t acc q).1 =
      (setData acc.1 q.1 q.2 (CellValue.text t) Role.edit).tracks := by
  have hne : ¬ (q.2 = COVER_COLUMN ∨ q.2 = FILENAME_COLUMN) := by
    push_neg
    exact ⟨isTextCol_ne_covercol h, isTextCol_ne_filenamecol h⟩
  unfold pasteTextStep
  rw [if_neg hne]

lemma pasteTextFold_spec (t : String) (indexes : List (Nat × Nat)) :
    ∀ acc : List TrackMetadata × List (Nat × Nat),
      (indexes.map Prod.fst).Nodup →
      (∀ p ∈ indexes, p.1 < acc.1.length) →
      ∀ p ∈ indexes, isTextCol p.2 = true →
        getAttrDefault (((indexes.foldl (pasteTextStep t) acc).1).getD p.1 default)
            (columnAttr p.2) = t ∧
        ((getAttrDefault (acc.1.getD p.1 default) (columnAttr p.2) ≠ t ∨
            (acc.1.getD p.1 default).modified = true) →
          (((indexes.foldl (pasteTextStep t) acc).1).getD p.1 default).modified
            = true) := by
  induction indexes with
  | nil =>
    intro acc _ _ p hp
    exact absurd hp (List.not_mem_nil p)
  | cons q rest ih =>
    intro acc hnodup hvalid p hp hptext
    have hqrest : q.1 ∉ rest.map Prod.fst := by
      simp only [List.map_cons, List.nodup_cons] at hnodup
      exact hnodup.1
    have hrestnodup : (rest.map Prod.fst).Nodup := by
      simp only [List.map_cons, List.nodup_cons] at hnodup
      exact hnodup.2
    rw [List.foldl_cons]
    rcases List.mem_cons.mp hp with rfl | hp
    · -- the cell being processed first
      have hq1 : p.1 < acc.1.length := hvalid p (List.mem_cons_self p rest)
      have hrow : ∀ d, ((rest.foldl (pasteTextStep t) (pasteTextStep t acc p)).1).getD p.1 d
          = (pasteTextStep t acc p).1.getD p.1 d :=
        fun d => pasteTextFold_row_ne t rest (pasteTextStep t acc p) hqrest d
      by_cases hold :
          getAttrDefault (acc.1.getD p.1 default) (columnAttr p.2) = t
      · have hstep : (pasteTextStep t acc p).1 = acc.1 := by
          rw [pasteTextStep_text t acc p hptext,
            setData_text_same hq1 hptext hold]
        constructor
        · rw [hrow default, hstep]
          exact hold
        · intro hmod
          rw [hrow default, hstep]
          rcases hmod with hmod | hmod
          · exact absurd hold hmod
          · exact hmod
      · have hstep : (pasteTextStep t acc p).1 =
            acc.1.set p.1
              { setAttr (acc.1.getD p.1 default) (columnAttr p.2) t with
                  modified := true } := by
          rw [pasteTextStep_text t acc p hptext,
            setData_text_diff hq1 hptext hold]
        constructor
        · rw [hrow default, hstep, getD_set_self hq1]
          exact getAttr_setAttr (columnAttr_text_cases hptext)
        · intro _
          rw [hrow default, hstep, getD_set_self hq1]
    · -- a later cell
      have hpq : p.1 ≠ q.1 := by
        intro he
        exact hqrest (he ▸ List.mem_map_of_mem Prod.fst hp)
      have hacc1row : (pasteTextStep t acc q).1.getD p.1 default
          = acc.1.getD p.1 default :=
        pasteTextStep_row_ne t acc q hpq default
      have hvalid2 : ∀ p2 ∈ rest, p2.1 < (pasteTextStep t acc q).1.length := by
        intro p2 hp2
        rw [pasteTextStep_length]
        exact hvalid p2 (List.mem_cons_of_mem q hp2)
      have ihp := ih (pasteTextStep t acc q) hrestnodup hvalid2 p hp hptext
      refine ⟨ihp.1, fun hmod => ihp.2 ?_⟩
      rw [hacc1row]
      exact hmod

lemma pasteTextFold_skip (t : String) (indexes : List (Nat × Nat)) :
    ∀ acc : List TrackMetadata × List (Nat × Nat),
      (indexes.map Prod.fst).Nodup →
      ∀ p ∈ indexes, (p.2 = COVER_COLUMN ∨ p.2 = FILENAME_COLUMN) →
        ((indexes.foldl (pasteTextStep t) acc).1).getD p.1 default
          = acc.1.getD p.1 default := by
  induction indexes with
  | nil =>
    intro acc _ p hp
    exact absurd hp (List.not_mem_nil p)
  | cons q rest ih =>
    intro acc hnodup p hp hskip
    have hqrest : q.1 ∉ rest.map Prod.fst := by
      simp only [List.map_cons, List.nodup_cons] at hnodup
      exact hnodup.1
    have hrestnodup : (rest.map Prod.fst).Nodup := by
      simp only [List.map_cons, List.nodup_cons] at hnodup
      exact hnodup.2
    rw [List.foldl_cons]
    rcases List.mem_cons.mp hp with rfl | hp
    · rw [pasteTextStep_skip t acc p hskip]
      exact pasteTextFold_row_ne t rest acc hqrest default
    · have hpq : p.1 ≠ q.1 := by
        intro he
        exact hqrest (he ▸ List.mem_map_of_mem Prod.fst hp)
      rw [ih (pasteTextStep t acc q) hrestnodup p hp hskip,
        pasteTextStep_row_ne t acc q hpq default]

/-- C5: with non-empty clipboard text and a selection whose first cell is
not in the cover column (rows pairwise distinct, as the single-column
selection model produces), paste broadcasts the clipboard string to every
selected text cell — each such cell reads the pasted string afterwards and
is dirty when its value differed (or it was already dirty) — while cover
and filename cells in the selection, and unselected rows, are untouched. -/
theorem C5_paste_text_broadcast (enc : List Nat → List Nat)
    (img : Option (List Nat)) (tracks : List TrackMetadata)
    (indexes : List (Nat × Nat)) (t : String)
    (hne : indexes ≠ [])
    (hhead : (indexes.headD (0, 0)).2 ≠ COVER_COLUMN)
    (ht : t ≠ "")
    (hrows : (indexes.map Prod.fst).Nodup)
    (hvalid : ∀ p ∈ indexes, p.1 < tracks.length) :
    (∀ p ∈ indexes, isTextCol p.2 = true →
      getAttrDefault
          ((paste_to_selection enc ⟨t, img⟩ tracks indexes).1.getD p.1 default)
          (columnAttr p.2) = t ∧
      ((getAttrDefault (tracks.getD p.1 default) (columnAttr p.2) ≠ t ∨
          (tracks.getD p.1 default).modified = true) →
        ((paste_to_selection enc ⟨t, img⟩ tracks indexes).1.getD p.1
            default).modified = true)) ∧
    (∀ p ∈ indexes, (p.2 = COVER_COLUMN ∨ p.2 = FILENAME_COLUMN) →
      (paste_to_selection enc ⟨t, img⟩ tracks indexes).1.getD p.1 default
        = tracks.getD p.1 default) ∧
    (∀ r, r ∉ indexes.map Prod.fst →
      (paste_to_selection enc ⟨t, img⟩ tracks indexes).1.getD r default
        = tracks.getD r default) := by
  have hunfold : paste_to_selection enc ⟨t, img⟩ tracks indexes =
      indexes.foldl (pasteTextStep t) (tracks, []) := by
    cases indexes with
    | nil => exact absurd rfl hne
    | cons q rest =>
      have hq : q.2 ≠ COVER_COLUMN := by simpa using hhead
      simp [paste_to_selection, hq, ht]
  rw [hunfold]
  exact ⟨fun p hp hptext =>
      pasteTextFold_spec t indexes (tracks, []) hrows hvalid p hp hptext,
    fun p hp hskip =>
      pasteTextFold_skip t indexes (tracks, []) hrows p hp hskip,
    fun r hr => pasteTextFold_row_ne t indexes (tracks, []) hr default⟩

/-- Closed instance of `C5_paste_text_broadcast`: rows 0–2 selected in the
genre column, clipboard text `"Jazz"`; all three rows read `"Jazz"` and
all three are dirty. -/
theorem C5_witness :
    (getAttrDefault
        (((paste_to_selection (fun x => x) ⟨"Jazz", none⟩
            [{ file_path := "a.mp3", genre := "Rock" },
             { file_path := "b.m4a", genre := "" },
             { file_path := "c.flac", genre := "Pop" }]
            [(0, 7), (1, 7), (2, 7)]).1).getD 0 default) (columnAttr 7)
      = "Jazz") ∧
    (getAttrDefault
        (((paste_to_selection (fun x => x) ⟨"Jazz", none⟩
            [{ file_path := "a.mp3", genre := "Rock" },
             { file_path := "b.m4a", genre := "" },
             { file_path := "c.flac", genre := "Pop" }]
            [(0, 7), (1, 7), (2, 7)]).1).getD 1 default) (columnAttr 7)
      = "Jazz") ∧
    (getAttrDefault
        (((paste_to_selection (fun x => x) ⟨"Jazz", none⟩
            [{ file_path := "a.mp3", genre := "Rock" },
             { file_path := "b.m4a", genre := "" },
             { file_path := "c.flac", genre := "Pop" }]
            [(0, 7), (1, 7), (2, 7)]).1).getD 2 default) (columnAttr 7)
      = "Jazz") ∧
    (((paste_to_selection (fun x => x) ⟨"Jazz", none⟩
        [{ file_path := "a.mp3", genre := "Rock" },
         { file_path := "b.m4a", genre := "" },
         { file_path := "c.flac", genre := "Pop" }]
        [(0, 7), (1, 7), (2, 7)]).1).getD 0 default).modified = true ∧
    (((paste_to_selection (fun x => x) ⟨"Jazz", none⟩
        [{ file_path := "a.mp3", genre := "Rock" },
         { file_path := "b.m4a", genre := "" },
         { file_path := "c.flac", genre := "Pop" }]
        [(0, 7), (1, 7), (2, 7)]).1).getD 1 default).modified = true ∧
    (((paste_to_selection (fun x => x) ⟨"Jazz", none⟩
        [{ file_path := "a.mp3", genre := "Rock" },
         { file_path := "b.m4a", genre := "" },
         { file_path := "c.flac", genre := "Pop" }]
        [(0, 7), (1, 7), (2, 7)]).1).getD 2 default).modified = true := by
  have h := C5_paste_text_broadcast (fun x => x) none
    [{ file_path := "a.mp3", genre := "Rock" },
     { file_path := "b.m4a", genre := "" },
     { file_path := "c.flac", genre := "Pop" }]
    [(0, 7), (1, 7), (2, 7)] "Jazz"
    (by decide) (by decide) (by decide) (by decide) (by decide)
  exact ⟨(h.1 (0, 7) (by decide) (by decide)).1,
    (h.1 (1, 7) (by decide) (by decide)).1,
    (h.1 (2, 7) (by decide) (by decide)).1,
    (h.1 (0, 7) (by decide) (by decide)).2 (Or.inl (by decide)),
    (h.1 (1, 7) (by decide) (by decide)).2 (Or.inl (by decide)),
    (h.1 (2, 7) (by decide) (by decide)).2 (Or.inl (by decide))⟩

end ShoboiTagEditor
